import Mathlib

/-!
Verification of the shield-ai DNS filtering core (crates/dns-core).

The Rust sources are shallowly embedded: Rust `String` becomes a list of
characters, `AHashSet<String>` becomes a duplicate-free-by-insertion list with
membership semantics, `HashMap<K, V>` and `DashMap<K, V>` become association
lists with first-match lookup, and `Instant`/`Duration` become natural numbers
(elapsed time is saturating subtraction, as with `Instant::elapsed`).
Each definition mirrors one function of the source crate.
-/

set_option maxHeartbeats 1000000

namespace ShieldAI

/-- Rust strings are modelled as lists of characters. -/
abbrev Str := List Char

/-- Rust `str::to_lowercase`, modelled with the ASCII lowering of `Char.toLower`. -/
def strToLower (s : Str) : Str := s.map Char.toLower

/-- Rust `str::starts_with(pat)` on character lists. -/
def strStartsWith : Str → Str → Bool
  | _, [] => true
  | [], _ :: _ => false
  | c :: s, d :: p => c == d && strStartsWith s p

/-- Rust `str::ends_with(pat)` on character lists. -/
def strEndsWith (s p : Str) : Bool := strStartsWith s.reverse p.reverse

/-- Rust `str::contains(char)` on character lists. -/
def strContainsChar (s : Str) (c : Char) : Bool := s.contains c

/-- `AHashSet::insert`: sets are lists without duplicate insertions. -/
def setInsert (x : Str) (s : List Str) : List Str := if x ∈ s then s else x :: s

/-- `AHashSet::remove`. -/
def setRemove (x : Str) (s : List Str) : List Str := s.filter (fun y => decide (y ≠ x))

/-- `HashMap::get` / `DashMap::get`: first-match lookup in an association list. -/
def alookup {κ β : Type} [DecidableEq κ] : List (κ × β) → κ → Option β
  | [], _ => none
  | (k, v) :: rest, key => if key = k then some v else alookup rest key

/-- `DashMap::insert`: replace the value at the key, or add a fresh binding. -/
def mapInsert {κ β : Type} [DecidableEq κ] (key : κ) (v : β) : List (κ × β) → List (κ × β)
  | [] => [(key, v)]
  | (k, w) :: rest => if key = k then (key, v) :: rest else (k, w) :: mapInsert key v rest

/-- `DashMap::remove` / `HashMap::remove`. -/
def removeKey {κ β : Type} [DecidableEq κ] (key : κ) (m : List (κ × β)) : List (κ × β) :=
  m.filter (fun kv => decide (kv.1 ≠ key))

/-- `map.entry(cat).or_insert_with(AHashSet::new).insert(d)`:
insert `d` into the set stored under `cat`, creating the entry if absent. -/
def addToCat : List (Str × List Str) → Str → Str → List (Str × List Str)
  | [], cat, d => [(cat, setInsert d [])]
  | (k, s) :: rest, cat, d =>
    if cat = k then (k, setInsert d s) :: rest else (k, s) :: addToCat rest cat d

/-- `map.entry(cat).or_insert_with(Vec::new).push(d)`:
append `d` to the vector stored under `cat`, creating the entry if absent. -/
def pushToCat : List (Str × List Str) → Str → Str → List (Str × List Str)
  | [], cat, d => [(cat, [d])]
  | (k, s) :: rest, cat, d =>
    if cat = k then (k, s ++ [d]) :: rest else (k, s) :: pushToCat rest cat d

/-- `map.entry(cat).or_insert_with(AHashSet::new)` evaluated for its side effect
only (as at the top of `fetch_single_source`). -/
def ensureCat : List (Str × List Str) → Str → List (Str × List Str)
  | [], cat => [(cat, [])]
  | (k, s) :: rest, cat =>
    if cat = k then (k, s) :: rest else (k, s) :: ensureCat rest cat

-- Basic facts about the helpers.

-- String constants appearing in the sources and in the spec's test vectors.

/-- The wildcard marker `"*."`. -/
def wildcardDot : Str := ("*.").data

/-- The category string `"custom"`. -/
def catCustom : Str := ("custom").data

/-- The record-type string `"A"` used by the resolver's cache key. -/
def recA : Str := ("A").data

/-! ## Static Filter (`src/crates/dns-core/src/filter.rs`) -/

/-- `FilterDecision` from filter.rs. -/
inductive FilterDecision : Type
  | Allow
  | Block
  | Unknown
deriving DecidableEq

/-- `FilterEngine` from filter.rs: flat blocklist, allowlist, wildcard
blocklist, and the `enabled` kill-switch. -/
structure FilterEngine : Type where
  blocklist : List Str
  allowlist : List Str
  wildcard_blocklist : List Str
  enabled : Bool
deriving DecidableEq

/-- `FilterEngine::new`. -/
def FilterEngine.new : FilterEngine :=
  { blocklist := [], allowlist := [], wildcard_blocklist := [], enabled := true }

/-- `FilterEngine::matches_wildcard` (filter.rs lines 70-77):
`domain.ends_with(suffix) || domain == &suffix[1..]` with `suffix = &pattern[2..]`. -/
def FilterEngine.matches_wildcard (domain pattern : Str) : Bool :=
  if strStartsWith pattern wildcardDot then
    let suffix := pattern.drop 2
    strEndsWith domain suffix || domain == suffix.drop 1
  else
    domain == pattern

/-- `FilterEngine::check` (filter.rs lines 38-66). -/
def FilterEngine.check (f : FilterEngine) (domain : Str) : FilterDecision :=
  if !f.enabled then .Allow
  else
    let domain_lower := strToLower domain
    if domain_lower ∈ f.allowlist then .Allow
    else if domain_lower ∈ f.blocklist then .Block
    else if f.wildcard_blocklist.any (fun pattern =>
        FilterEngine.matches_wildcard domain_lower pattern) then .Block
    else .Allow

/-- `FilterEngine::is_blocked`. -/
def FilterEngine.is_blocked (f : FilterEngine) (domain : Str) : Bool :=
  f.check domain == FilterDecision.Block

/-- `FilterEngine::add_to_blocklist` (filter.rs lines 80-87). -/
def FilterEngine.add_to_blocklist (f : FilterEngine) (domain : Str) : FilterEngine :=
  let domain_lower := strToLower domain
  if strStartsWith domain_lower wildcardDot then
    { f with wildcard_blocklist := f.wildcard_blocklist ++ [domain_lower] }
  else
    { f with blocklist := setInsert domain_lower f.blocklist }

/-- `FilterEngine::remove_from_blocklist` (filter.rs lines 90-97). -/
def FilterEngine.remove_from_blocklist (f : FilterEngine) (domain : Str) : FilterEngine :=
  let domain_lower := strToLower domain
  if strStartsWith domain_lower wildcardDot then
    { f with wildcard_blocklist :=
        f.wildcard_blocklist.filter (fun d => decide (d ≠ domain_lower)) }
  else
    { f with blocklist := setRemove domain_lower f.blocklist }

/-- `FilterEngine::add_to_allowlist`. -/
def FilterEngine.add_to_allowlist (f : FilterEngine) (domain : Str) : FilterEngine :=
  { f with allowlist := setInsert (strToLower domain) f.allowlist }

/-- `FilterEngine::remove_from_allowlist`. -/
def FilterEngine.remove_from_allowlist (f : FilterEngine) (domain : Str) : FilterEngine :=
  { f with allowlist := setRemove (strToLower domain) f.allowlist }

/-! ## List Store (`src/crates/dns-core/src/blocklist_fetcher.rs`) -/

/-- `BlocklistManager` state: per-category exact-domain sets, the flattened
`all_blocked` set, per-category wildcard pattern vectors, and the enabled
categories (statistics and fetch timestamps are omitted: no claim is about
them). -/
structure BlocklistManager : Type where
  domains_by_category : List (Str × List Str)
  all_blocked : List Str
  wildcards_by_category : List (Str × List Str)
  enabled_categories : List Str
deriving DecidableEq

/-- `BlocklistManager::new` (blocklist_fetcher.rs lines 88-103). -/
def BlocklistManager.new : BlocklistManager :=
  { domains_by_category := []
    all_blocked := []
    wildcards_by_category := []
    enabled_categories :=
      [("ads").data, ("malware").data, ("phishing").data, ("tracking").data] }

/-- `BlocklistManager::matches_wildcard` (blocklist_fetcher.rs lines 393-399):
`domain.ends_with(suffix) || domain == suffix` after `strip_prefix("*.")`. -/
def BlocklistManager.matches_wildcard (domain pattern : Str) : Bool :=
  if strStartsWith pattern wildcardDot then
    let suffix := pattern.drop 2
    strEndsWith domain suffix || domain == suffix
  else
    domain == pattern

/-- `BlocklistManager::rebuild_blocked_set` (blocklist_fetcher.rs lines
299-313): clear the flat set and repopulate it from the enabled categories. -/
def BlocklistManager.rebuild_blocked_set (m : BlocklistManager) : BlocklistManager :=
  { m with all_blocked :=
      m.enabled_categories.foldl (fun blocked cat =>
        match alookup m.domains_by_category cat with
        | some cat_domains => cat_domains.foldl (fun b d => setInsert d b) blocked
        | none => blocked) [] }

/-- `BlocklistManager::is_blocked` (blocklist_fetcher.rs lines 316-339). -/
def BlocklistManager.is_blocked (m : BlocklistManager) (domain : Str) : Bool :=
  let domain_lower := strToLower domain
  if domain_lower ∈ m.all_blocked then true
  else
    m.enabled_categories.any (fun cat =>
      match alookup m.wildcards_by_category cat with
      | some patterns => patterns.any (fun p => BlocklistManager.matches_wildcard domain_lower p)
      | none => false)

/-- `BlocklistManager::is_blocked_by_category` (blocklist_fetcher.rs lines
342-361). -/
def BlocklistManager.is_blocked_by_category (m : BlocklistManager)
    (domain category : Str) : Bool :=
  let domain_lower := strToLower domain
  (match alookup m.domains_by_category category with
   | some cat_domains => decide (domain_lower ∈ cat_domains)
   | none => false)
  ||
  (match alookup m.wildcards_by_category category with
   | some patterns => patterns.any (fun p => BlocklistManager.matches_wildcard domain_lower p)
   | none => false)

/-- `BlocklistManager::enable_category` (blocklist_fetcher.rs lines 402-405). -/
def BlocklistManager.enable_category (m : BlocklistManager) (category : Str) :
    BlocklistManager :=
  BlocklistManager.rebuild_blocked_set
    { m with enabled_categories := setInsert category m.enabled_categories }

/-- `BlocklistManager::disable_category` (blocklist_fetcher.rs lines 408-411). -/
def BlocklistManager.disable_category (m : BlocklistManager) (category : Str) :
    BlocklistManager :=
  BlocklistManager.rebuild_blocked_set
    { m with enabled_categories := setRemove category m.enabled_categories }

/-- `BlocklistManager::set_enabled_categories` (blocklist_fetcher.rs lines
414-422): clear the enabled set, insert the given categories, rebuild. -/
def BlocklistManager.set_enabled_categories (m : BlocklistManager)
    (categories : List Str) : BlocklistManager :=
  BlocklistManager.rebuild_blocked_set
    { m with enabled_categories := categories.foldl (fun s c => setInsert c s) [] }

/-- `BlocklistManager::add_domain` (blocklist_fetcher.rs lines 440-454):
insert into the category set, and into the flat set when the category is
enabled.  (Note: no `*.` routing here, unlike the fetch path.) -/
def BlocklistManager.add_domain (m : BlocklistManager) (domain category : Str) :
    BlocklistManager :=
  let domain_lower := strToLower domain
  let m1 := { m with domains_by_category := addToCat m.domains_by_category category domain_lower }
  if category ∈ m.enabled_categories then
    { m1 with all_blocked := setInsert domain_lower m1.all_blocked }
  else
    m1

/-- `BlocklistManager::remove_domain` (blocklist_fetcher.rs lines 457-467):
remove from every category set and from the flat set. -/
def BlocklistManager.remove_domain (m : BlocklistManager) (domain : Str) :
    BlocklistManager :=
  let domain_lower := strToLower domain
  { m with
    domains_by_category :=
      m.domains_by_category.map (fun kv => (kv.1, setRemove domain_lower kv.2))
    all_blocked := setRemove domain_lower m.all_blocked }

/-- The per-source state mutation of `fetch_single_source` (blocklist_fetcher.rs
lines 189-202), applied to the already-parsed domain list of one source:
`*.`-prefixed entries are pushed onto the category's wildcard vector, the rest
are inserted into the category's exact set. -/
def BlocklistManager.apply_source (m : BlocklistManager) (category : Str)
    (domains : List Str) : BlocklistManager :=
  let m0 := { m with domains_by_category := ensureCat m.domains_by_category category }
  domains.foldl (fun acc domain =>
    if strStartsWith domain wildcardDot then
      { acc with wildcards_by_category := pushToCat acc.wildcards_by_category category domain }
    else
      { acc with domains_by_category := addToCat acc.domains_by_category category domain }) m0

/-- One `fetch_blocklists` batch (blocklist_fetcher.rs lines 114-169), with the
network already performed: each fetched source's parsed domains are applied in
turn, then the flat blocked set is rebuilt once at the end of the batch. -/
def BlocklistManager.fetch_apply (m : BlocklistManager)
    (sources : List (Str × List Str)) : BlocklistManager :=
  BlocklistManager.rebuild_blocked_set
    (sources.foldl (fun acc src => acc.apply_source src.1 src.2) m)

/-- `BlocklistManager::parse_adblock_line` (blocklist_fetcher.rs lines 268-284).
`trim_start_matches("||")` and `trim_end_matches('^')` strip repeated
occurrences, as in Rust. -/
def dropLeadingPipes : Str → Str
  | '|' :: '|' :: rest => dropLeadingPipes rest
  | s => s

def dropTrailingCarets (s : Str) : Str :=
  (s.reverse.dropWhile (fun c => c == '^')).reverse

def BlocklistManager.parse_adblock_line (line : Str) : Option Str :=
  if strContainsChar line '$' || strContainsChar line '/' ||
      (strContainsChar line '*' && !strStartsWith line (("||").data)) then
    none
  else if strStartsWith line (("||").data) && strEndsWith line (("^").data) then
    let domain := strToLower (dropTrailingCarets (dropLeadingPipes line))
    if domain ≠ [] ∧ strContainsChar domain '.' then some domain else none
  else
    none

/-! ## Policy Engine (`src/crates/dns-core/src/unified_filter.rs`) -/

/-- Client IPs are opaque identifiers; only equality is used. -/
abbrev IpAddr := Str

/-- `FilterReason` from unified_filter.rs. -/
inductive FilterReason : Type
  | GlobalAllowlist
  | ProfileAllowlist
  | GlobalBlocklist
  | CategoryBlock
  | ProfileBlock
  | TimeBasedRule
  | DefaultAllow
deriving DecidableEq

/-- `DeviceProfile` from unified_filter.rs. -/
structure DeviceProfile : Type where
  id : Str
  name : Str
  blocked_categories : List Str
  custom_blocklist : List Str
  custom_allowlist : List Str
  enabled : Bool
deriving DecidableEq

/-- `DeviceProfile::default` (unified_filter.rs lines 65-81). -/
def DeviceProfile.default : DeviceProfile :=
  { id := ("default").data
    name := ("Default").data
    blocked_categories :=
      [("ads").data, ("malware").data, ("phishing").data, ("tracking").data]
    custom_blocklist := []
    custom_allowlist := []
    enabled := true }

/-- `FilterResult` from unified_filter.rs. -/
structure FilterResult : Type where
  decision : FilterDecision
  reason : FilterReason
  category : Option Str
  profile_id : Option Str
  profile_name : Option Str
deriving DecidableEq

/-- `UnifiedFilter` state from unified_filter.rs. -/
structure UnifiedFilter : Type where
  blocklist_manager : BlocklistManager
  legacy_filter : FilterEngine
  device_profiles : List (IpAddr × DeviceProfile)
  device_id_profiles : List (Str × DeviceProfile)
  default_profile : DeviceProfile
  global_allowlist : List Str
deriving DecidableEq

/-- The profile-list matcher used at steps 3 and 5 of `UnifiedFilter::check`:
`domain_lower == p.to_lowercase() || domain_lower.ends_with(&format!(".{}", p.to_lowercase()))`. -/
def profile_pattern_matches (domain_lower p : Str) : Bool :=
  domain_lower == strToLower p || strEndsWith domain_lower ('.' :: strToLower p)

/-- `UnifiedFilter::get_profile_for_client` (unified_filter.rs lines 243-252):
an enabled profile mapped to the client IP, else the default profile. -/
def UnifiedFilter.get_profile_for_client (u : UnifiedFilter)
    (client_ip : Option IpAddr) : DeviceProfile :=
  match client_ip with
  | some ip =>
    match alookup u.device_profiles ip with
    | some profile => if profile.enabled then profile else u.default_profile
    | none => u.default_profile
  | none => u.default_profile

/-- `UnifiedFilter::check` (unified_filter.rs lines 137-230). -/
def UnifiedFilter.check (u : UnifiedFilter) (domain : Str)
    (client_ip : Option IpAddr) : FilterResult :=
  let domain_lower := strToLower domain
  -- Step 1: global allowlist
  if domain_lower ∈ u.global_allowlist then
    { decision := .Allow, reason := .GlobalAllowlist, category := none,
      profile_id := none, profile_name := none }
  else
    -- Step 2: applicable profile
    let profile := u.get_profile_for_client client_ip
    -- Step 3: profile allowlist
    if profile.custom_allowlist.any (fun p => profile_pattern_matches domain_lower p) then
      { decision := .Allow, reason := .ProfileAllowlist, category := none,
        profile_id := some profile.id, profile_name := some profile.name }
    -- Step 4: legacy filter allowlist
    else if u.legacy_filter.check domain_lower = FilterDecision.Allow ∧
        domain_lower ∈ u.legacy_filter.allowlist then
      { decision := .Allow, reason := .GlobalAllowlist, category := none,
        profile_id := none, profile_name := none }
    -- Step 5: profile custom blocklist
    else if profile.custom_blocklist.any (fun p => profile_pattern_matches domain_lower p) then
      { decision := .Block, reason := .ProfileBlock, category := some catCustom,
        profile_id := some profile.id, profile_name := some profile.name }
    -- Step 6: legacy filter blocklist
    else if u.legacy_filter.is_blocked domain_lower then
      { decision := .Block, reason := .GlobalBlocklist, category := some catCustom,
        profile_id := none, profile_name := none }
    else
      -- Step 7: category blocklists in the profile's listed order
      match profile.blocked_categories.find? (fun cat =>
          u.blocklist_manager.is_blocked_by_category domain_lower cat) with
      | some category =>
        { decision := .Block, reason := .CategoryBlock, category := some category,
          profile_id := some profile.id, profile_name := some profile.name }
      -- Step 8: default allow
      | none =>
        { decision := .Allow, reason := .DefaultAllow, category := none,
          profile_id := some profile.id, profile_name := some profile.name }

/-- `UnifiedFilter::is_blocked`. -/
def UnifiedFilter.is_blocked (u : UnifiedFilter) (domain : Str) : Bool :=
  (u.check domain none).decision == FilterDecision.Block

/-! ## Name Cache (`src/crates/dns-core/src/cache.rs`)

`Instant` is a natural number; `Instant::elapsed` at time `now` is the
saturating difference `now - inserted_at`. -/

/-- `CacheEntry` from cache.rs. -/
structure CacheEntry : Type where
  records : List Str
  inserted_at : Nat
  ttl : Nat
deriving DecidableEq

/-- `CacheEntry::is_expired`: `inserted_at.elapsed() > ttl` (cache.rs lines
27-29). -/
def CacheEntry.is_expired (e : CacheEntry) (now : Nat) : Bool :=
  now - e.inserted_at > e.ttl

/-- `CacheKey` from cache.rs. -/
structure CacheKey : Type where
  name : Str
  record_type : Str
deriving DecidableEq

/-- `DNSCache` from cache.rs. -/
structure DNSCache : Type where
  cache : List (CacheKey × CacheEntry)
  max_size : Nat
  default_ttl : Nat
  hits : Nat
  misses : Nat
deriving DecidableEq

/-- `DNSCache::get` (cache.rs lines 76-94): an expired entry is evicted and
counted as a miss; a live entry is a hit; absence is a miss.  The updated
cache state is returned alongside the result. -/
def DNSCache.get (c : DNSCache) (key : CacheKey) (now : Nat) :
    Option (List Str) × DNSCache :=
  match alookup c.cache key with
  | some entry =>
    if entry.is_expired now then
      (none, { c with cache := removeKey key c.cache, misses := c.misses + 1 })
    else
      (some entry.records, { c with hits := c.hits + 1 })
  | none => (none, { c with misses := c.misses + 1 })

/-- `DNSCache::evict_oldest` (cache.rs lines 110-129): remove expired entries;
if none are expired, remove the first `max_size / 10` entries in iteration
order. -/
def DNSCache.evict_oldest (c : DNSCache) (now : Nat) : DNSCache :=
  let expired := (c.cache.filter (fun kv => kv.2.is_expired now)).map (fun kv => kv.1)
  let to_remove :=
    if expired.isEmpty then (c.cache.take (c.max_size / 10)).map (fun kv => kv.1)
    else expired
  { c with cache := to_remove.foldl (fun m k => removeKey k m) c.cache }

/-- `DNSCache::insert` (cache.rs lines 97-107): evict when full, then store the
entry with the supplied TTL or the default. -/
def DNSCache.insert (c : DNSCache) (key : CacheKey) (records : List Str)
    (ttl : Option Nat) (now : Nat) : DNSCache :=
  let c1 := if c.cache.length ≥ c.max_size then c.evict_oldest now else c
  let t := ttl.getD c.default_ttl
  { c1 with cache := mapInsert key { records := records, inserted_at := now, ttl := t } c1.cache }

/-! ## Resolver (`src/crates/dns-core/src/resolver.rs`)

Addresses are kept in their string form (`IpAddr::to_string` /
`str::parse` round-trip is the identity here).  The upstream
`lookup_ip` call is an explicit parameter: the success or failure the
upstream would produce for this call. -/

/-- Upstream resolution errors, propagated verbatim. -/
abbrev ResolveError := Str

/-- `Resolver` state from resolver.rs (the upstream handle is replaced by the
per-call `upstream` argument of `resolve`). -/
structure Resolver : Type where
  cache : DNSCache
  filter : FilterEngine
deriving DecidableEq

/-- `Resolver::resolve` (resolver.rs lines 41-77).  Returns the call's result
together with the updated resolver state. -/
def Resolver.resolve (r : Resolver) (domain : Str) (now : Nat)
    (upstream : Except ResolveError (List Str)) :
    Except ResolveError (List Str) × Resolver :=
  match r.filter.check domain with
  | .Block => (.ok [], r)
  | _ =>
    let cache_key : CacheKey := { name := domain, record_type := recA }
    match r.cache.get cache_key now with
    | (some cached, c1) => (.ok cached, { r with cache := c1 })
    | (none, c1) =>
      match upstream with
      | .ok ips =>
        (.ok ips, { r with cache := c1.insert cache_key ips none now })
      | .error e => (.error e, { r with cache := c1 })

/-! ## The C4 join invariant -/

/-- The flattened `all_blocked` set holds exactly the domains of the exact-match
sets of the currently enabled categories (`EnabledCategories ⋈ List Store
categories`). -/
def flatInv (m : BlocklistManager) : Prop :=
  ∀ d : Str, d ∈ m.all_blocked ↔
    ∃ cat, cat ∈ m.enabled_categories ∧
      ∃ s, alookup m.domains_by_category cat = some s ∧ d ∈ s

/-! ## Concrete fixtures used by the witnesses and counterexamples -/

/-- A filter state whose global allowlist and static blocklist both hold
`allowed.example.com`. -/
def uAllowBlock : UnifiedFilter :=
  { blocklist_manager := BlocklistManager.new
    legacy_filter := { FilterEngine.new with blocklist := [("allowed.example.com").data] }
    device_profiles := []
    device_id_profiles := []
    default_profile := DeviceProfile.default
    global_allowlist := [("allowed.example.com").data] }

/-- An enabled profile whose custom blocklist holds `bad.example.com`. -/
def profileKid : DeviceProfile :=
  { id := ("kid1").data
    name := ("Kid").data
    blocked_categories := []
    custom_blocklist := [("bad.example.com").data]
    custom_allowlist := []
    enabled := true }

/-- A filter state with no IP assignments whose device-id map holds
`profileKid` under the id `tablet-1`. -/
def uDeviceOnly : UnifiedFilter :=
  { blocklist_manager := BlocklistManager.new
    legacy_filter := FilterEngine.new
    device_profiles := []
    device_id_profiles := [(("tablet-1").data, profileKid)]
    default_profile := DeviceProfile.default
    global_allowlist := [] }

/-- `uDeviceOnly` with `profileKid` additionally assigned to the IP
`10.0.0.5`. -/
def uIpAssigned : UnifiedFilter :=
  { uDeviceOnly with device_profiles := [(("10.0.0.5").data, profileKid)] }

/-- A cache key for `cached.example.com`, record type `A`. -/
def keyCached : CacheKey := { name := ("cached.example.com").data, record_type := recA }

/-- A cache holding a single entry for `keyCached`, inserted at time 0 with
TTL 0. -/
def cacheTtl0 : DNSCache :=
  { cache := [(keyCached, { records := [("1.2.3.4").data], inserted_at := 0, ttl := 0 })]
    max_size := 10
    default_ttl := 300
    hits := 0
    misses := 0 }

/-- A resolver whose static filter blocks `malware.example.com` and whose cache
is empty. -/
def rBlocking : Resolver :=
  { cache := { cache := [], max_size := 10, default_ttl := 300, hits := 0, misses := 0 }
    filter := { FilterEngine.new with blocklist := [("malware.example.com").data] } }

/-- A resolver with an empty filter and an empty cache. -/
def rEmpty : Resolver :=
  { cache := { cache := [], max_size := 10, default_ttl := 300, hits := 0, misses := 0 }
    filter := FilterEngine.new }

/-! ## Helper lemmas -/

theorem char_toNat_ofNat_of_lt {n : Nat} (h : n < 55296) : (Char.ofNat n).toNat = n := by
  rw [Char.ofNat, dif_pos (Or.inl h)]
  rfl

theorem char_toLower_toLower (c : Char) : c.toLower.toLower = c.toLower := by
  simp only [Char.toLower]
  by_cases h : 65 ≤ c.toNat ∧ c.toNat ≤ 90
  · rw [if_pos h]
    have h1 : (Char.ofNat (c.toNat + 32)).toNat = c.toNat + 32 :=
      char_toNat_ofNat_of_lt (by omega)
    rw [if_neg (by rw [h1]; omega)]
  · rw [if_neg h, if_neg h]

theorem strToLower_idem (s : Str) : strToLower (strToLower s) = strToLower s := by
  induction s with
  | nil => rfl
  | cons c cs ih =>
    simp only [strToLower, List.map_cons, List.map_map] at *
    exact List.cons_eq_cons.mpr ⟨char_toLower_toLower c, ih⟩

theorem mem_setInsert (x d : Str) (s : List Str) :
    d ∈ setInsert x s ↔ d = x ∨ d ∈ s := by
  unfold setInsert
  split
  · constructor
    · exact fun h => Or.inr h
    · rintro (rfl | h)
      · assumption
      · assumption
  · simp [List.mem_cons]

theorem mem_setRemove (x d : Str) (s : List Str) :
    d ∈ setRemove x s ↔ d ∈ s ∧ d ≠ x := by
  simp [setRemove]

theorem alookup_mapInsert_self {κ β : Type} [DecidableEq κ] (key : κ) (v : β)
    (m : List (κ × β)) : alookup (mapInsert key v m) key = some v := by
  induction m with
  | nil => simp [mapInsert, alookup]
  | cons kv rest ih =>
    obtain ⟨k, w⟩ := kv
    by_cases h : key = k
    · simp [mapInsert, h, alookup]
    · simp [mapInsert, h, alookup, ih]

theorem alookup_removeKey_self {κ β : Type} [DecidableEq κ] (key : κ)
    (m : List (κ × β)) : alookup (removeKey key m) key = none := by
  induction m with
  | nil => rfl
  | cons kv rest ih =>
    obtain ⟨k, w⟩ := kv
    by_cases h : k = key
    · simpa [removeKey, h] using ih
    · have hne : key ≠ k := fun hk => h hk.symm
      simpa [removeKey, h, alookup, hne] using ih

theorem alookup_addToCat (m : List (Str × List Str)) (cat d k : Str) :
    alookup (addToCat m cat d) k =
      if k = cat then some (setInsert d ((alookup m cat).getD []))
      else alookup m k := by
  induction m with
  | nil =>
    by_cases h : k = cat <;> simp [addToCat, alookup, h]
  | cons kv rest ih =>
    obtain ⟨k0, s0⟩ := kv
    by_cases hc : cat = k0
    · subst hc
      by_cases hk : k = cat <;> simp [addToCat, alookup, hk]
    · by_cases hk : k = k0
      · subst hk
        have hne : ¬ k = cat := fun h => hc h.symm
        simp [addToCat, hc, alookup, hne]
      · simp [addToCat, hc, alookup, hk, ih]

theorem alookup_map_setRemove (m : List (Str × List Str)) (d k : Str) :
    alookup (m.map (fun kv => (kv.1, setRemove d kv.2))) k =
      (alookup m k).map (setRemove d) := by
  induction m with
  | nil => rfl
  | cons kv rest ih =>
    obtain ⟨k0, s0⟩ := kv
    by_cases hk : k = k0 <;> simp [alookup, hk, ih]

/-- If the (already lowered) domain is in the allowlist, `check` answers Allow,
whether or not the engine is enabled. -/
theorem filter_check_allow_of_mem_allowlist (f : FilterEngine) (d : Str)
    (h : strToLower d ∈ f.allowlist) : f.check d = FilterDecision.Allow := by
  unfold FilterEngine.check
  by_cases he : f.enabled <;> simp [he, h]

theorem mem_foldl_setInsert (ds : List Str) (acc : List Str) (d : Str) :
    d ∈ ds.foldl (fun b x => setInsert x b) acc ↔ d ∈ acc ∨ d ∈ ds := by
  induction ds generalizing acc with
  | nil => simp
  | cons x xs ih =>
    simp only [List.foldl_cons, ih, mem_setInsert, List.mem_cons]
    tauto

theorem mem_rebuild_fold (cats : List Str) (dbc : List (Str × List Str))
    (acc : List Str) (d : Str) :
    d ∈ cats.foldl (fun blocked cat =>
        match alookup dbc cat with
        | some cat_domains => cat_domains.foldl (fun b x => setInsert x b) blocked
        | none => blocked) acc
    ↔ d ∈ acc ∨ ∃ cat, cat ∈ cats ∧ ∃ s, alookup dbc cat = some s ∧ d ∈ s := by
  induction cats generalizing acc with
  | nil => simp
  | cons c cs ih =>
    simp only [List.foldl_cons]
    rcases hc : alookup dbc c with _ | s
    · rw [ih]
      constructor
      · rintro (h | ⟨cat, hcat, hs⟩)
        · exact Or.inl h
        · exact Or.inr ⟨cat, List.mem_cons_of_mem c hcat, hs⟩
      · rintro (h | ⟨cat, hcat, s, hfind, hd⟩)
        · exact Or.inl h
        · rcases List.mem_cons.mp hcat with rfl | hcat
          · rw [hc] at hfind; cases hfind
          · exact Or.inr ⟨cat, hcat, s, hfind, hd⟩
    · rw [ih, mem_foldl_setInsert]
      constructor
      · rintro ((h | h) | ⟨cat, hcat, hs⟩)
        · exact Or.inl h
        · exact Or.inr ⟨c, List.mem_cons_self c cs, s, hc, h⟩
        · exact Or.inr ⟨cat, List.mem_cons_of_mem c hcat, hs⟩
      · rintro (h | ⟨cat, hcat, s2, hfind, hd⟩)
        · exact Or.inl (Or.inl h)
        · rcases List.mem_cons.mp hcat with rfl | hcat
          · rw [hc] at hfind
            cases hfind
            exact Or.inl (Or.inr hd)
          · exact Or.inr ⟨cat, hcat, s2, hfind, hd⟩

/-- `rebuild_blocked_set` establishes the join invariant from any state. -/
theorem flatInv_rebuild (m : BlocklistManager) :
    flatInv m.rebuild_blocked_set := by
  intro d
  simp only [BlocklistManager.rebuild_blocked_set, mem_rebuild_fold,
    List.not_mem_nil, false_or]

/-! ## Claim theorems -/

/-- C2: the spec says pattern `*.ads.example.com` matches `x.ads.example.com`
and `ads.example.com` but neither `ads.example.com.evil.net` nor
`notads.example.com`.  The code's matchers (both the List Store's and the
Static Filter's) use a bare string `ends_with` with no label-boundary check,
so `notads.example.com` *does* match: the first three test vectors behave as
specified and the fourth diverges. -/
theorem C2_wildcard_matcher_eval :
    BlocklistManager.matches_wildcard (("x.ads.example.com").data) (("*.ads.example.com").data) = true
  ∧ BlocklistManager.matches_wildcard (("ads.example.com").data) (("*.ads.example.com").data) = true
  ∧ BlocklistManager.matches_wildcard (("ads.example.com.evil.net").data) (("*.ads.example.com").data) = false
  ∧ BlocklistManager.matches_wildcard (("notads.example.com").data) (("*.ads.example.com").data) = true
  ∧ FilterEngine.matches_wildcard (("notads.example.com").data) (("*.ads.example.com").data) = true := by
  decide

/-- C9: `parse_adblock_line` maps `||ads.example.com^` to `ads.example.com`,
and rejects every line carrying the option separator `$`. -/
theorem C9_adblock_line_parsing :
    BlocklistManager.parse_adblock_line (("||ads.example.com^").data)
      = some (("ads.example.com").data)
  ∧ (∀ line : Str, strContainsChar line '$' = true →
      BlocklistManager.parse_adblock_line line = none) := by
  constructor
  · decide
  · intro line h
    simp [BlocklistManager.parse_adblock_line, h]

theorem C9_adblock_line_parsing_witness :
    BlocklistManager.parse_adblock_line (("||ads.example.com^$script").data) = none :=
  C9_adblock_line_parsing.2 (("||ads.example.com^$script").data) (by decide)

/-- C10: `FilterEngine::check` only ever returns Allow or Block (the Unknown
variant is unreachable), and `is_blocked` is exactly `check = Block`. -/
theorem C10_check_never_unknown (f : FilterEngine) (domain : Str) :
    (f.check domain = FilterDecision.Allow ∨ f.check domain = FilterDecision.Block)
  ∧ (f.is_blocked domain = true ↔ f.check domain = FilterDecision.Block) := by
  constructor
  · simp only [FilterEngine.check]
    split
    · exact Or.inl rfl
    · split
      · exact Or.inl rfl
      · split
        · exact Or.inr rfl
        · split
          · exact Or.inr rfl
          · exact Or.inl rfl
  · simp [FilterEngine.is_blocked]

/-- C1: allow always outranks block.  If the domain is in the global
allowlist, or matches the applicable profile's custom allowlist under the
exact-or-dot-suffix rule, or is in the Static Filter's allowlist, then
`UnifiedFilter::check` decides Allow — with no assumption whatsoever on the
blocklists, categories, or profiles of the state. -/
theorem C1_allow_over_block (u : UnifiedFilter) (domain : Str) (client_ip : Option IpAddr)
    (h : strToLower domain ∈ u.global_allowlist
       ∨ (u.get_profile_for_client client_ip).custom_allowlist.any
           (fun p => profile_pattern_matches (strToLower domain) p) = true
       ∨ strToLower domain ∈ u.legacy_filter.allowlist) :
    (u.check domain client_ip).decision = FilterDecision.Allow := by
  simp only [UnifiedFilter.check]
  by_cases h1 : strToLower domain ∈ u.global_allowlist
  · simp [h1]
  · by_cases h2 : (u.get_profile_for_client client_ip).custom_allowlist.any
        (fun p => profile_pattern_matches (strToLower domain) p) = true
    · simp [h1, h2]
    · have h3 : strToLower domain ∈ u.legacy_filter.allowlist := by
        rcases h with ha | hb | hc
        · exact absurd ha h1
        · exact absurd hb h2
        · exact hc
      have hchk : u.legacy_filter.check (strToLower domain) = FilterDecision.Allow := by
        apply filter_check_allow_of_mem_allowlist
        rw [strToLower_idem]
        exact h3
      simp [h1, h2, hchk, h3]

theorem C1_allow_over_block_witness :
    uAllowBlock.legacy_filter.is_blocked (strToLower (("allowed.example.com").data)) = true
  ∧ (uAllowBlock.check (("allowed.example.com").data) none).decision = FilterDecision.Allow :=
  ⟨by decide, C1_allow_over_block uAllowBlock (("allowed.example.com").data) none (Or.inl (by decide))⟩

/-- C3 counterexample: the claim says that, absent a client-IP match, profile
resolution falls back to the device-id map before the default profile.  In
`uDeviceOnly` the only profile anywhere is the enabled device-id profile
`profileKid` (blocking `bad.example.com`), yet resolution yields the default
profile and the domain is allowed — the device-id map is never consulted. -/
theorem C3_device_id_not_consulted :
    uDeviceOnly.device_id_profiles = [(("tablet-1").data, profileKid)]
  ∧ profileKid.enabled = true
  ∧ uDeviceOnly.get_profile_for_client none = uDeviceOnly.default_profile
  ∧ uDeviceOnly.get_profile_for_client none ≠ profileKid
  ∧ (uDeviceOnly.check (("bad.example.com").data) none).decision = FilterDecision.Allow := by
  refine ⟨rfl, rfl, rfl, by decide, by decide⟩

/-- C3 (amended): in `UnifiedFilter::check` the applicable profile is resolved
by client IP only — an enabled profile mapped to the client IP applies, and in
every other case (no client IP, no mapping for the IP, or a disabled mapped
profile) the default profile applies; the device-id profile map is not
consulted. -/
theorem C3_profile_resolution (u : UnifiedFilter) :
    (u.get_profile_for_client none = u.default_profile)
  ∧ (∀ ip : IpAddr, alookup u.device_profiles ip = none →
      u.get_profile_for_client (some ip) = u.default_profile)
  ∧ (∀ (ip : IpAddr) (p : DeviceProfile),
      alookup u.device_profiles ip = some p → p.enabled = true →
      u.get_profile_for_client (some ip) = p)
  ∧ (∀ (ip : IpAddr) (p : DeviceProfile),
      alookup u.device_profiles ip = some p → p.enabled = false →
      u.get_profile_for_client (some ip) = u.default_profile) := by
  refine ⟨rfl, ?_, ?_, ?_⟩
  · intro ip hip
    simp [UnifiedFilter.get_profile_for_client, hip]
  · intro ip p hip hp
    simp [UnifiedFilter.get_profile_for_client, hip, hp]
  · intro ip p hip hp
    simp [UnifiedFilter.get_profile_for_client, hip, hp]

theorem C3_profile_resolution_witness :
    alookup uIpAssigned.device_profiles (("10.0.0.5").data) = some profileKid
  ∧ uIpAssigned.get_profile_for_client (some (("10.0.0.5").data)) = profileKid :=
  ⟨by decide, (C3_profile_resolution uIpAssigned).2.2.1 (("10.0.0.5").data) profileKid
    (by decide) (by decide)⟩

/-- C5: a `get` that finds an expired entry (elapsed strictly greater than its
TTL) returns nothing, evicts the entry, and counts a miss, leaving the hit
counter alone; and an entry stored with `ttl = 0` is expired at every strictly
later time. -/
theorem C5_expired_never_observable :
    (∀ (c : DNSCache) (key : CacheKey) (now : Nat) (e : CacheEntry),
      alookup c.cache key = some e → e.is_expired now = true →
        (c.get key now).1 = none
      ∧ alookup (c.get key now).2.cache key = none
      ∧ (c.get key now).2.misses = c.misses + 1
      ∧ (c.get key now).2.hits = c.hits)
  ∧ (∀ (records : List Str) (t0 now : Nat), t0 < now →
      CacheEntry.is_expired { records := records, inserted_at := t0, ttl := 0 } now = true) := by
  constructor
  · intro c key now e hfind hexp
    simp [DNSCache.get, hfind, hexp, alookup_removeKey_self]
  · intro records t0 now h
    simp only [CacheEntry.is_expired, gt_iff_lt, decide_eq_true_eq]
    omega

theorem C5_expired_never_observable_witness :
    (cacheTtl0.get keyCached 5).1 = none
  ∧ alookup (cacheTtl0.get keyCached 5).2.cache keyCached = none
  ∧ (cacheTtl0.get keyCached 5).2.misses = cacheTtl0.misses + 1
  ∧ (cacheTtl0.get keyCached 5).2.hits = cacheTtl0.hits :=
  C5_expired_never_observable.1 cacheTtl0 keyCached 5
    { records := [("1.2.3.4").data], inserted_at := 0, ttl := 0 } (by decide) (by decide)

/-- C6: for a domain the Static Filter blocks, `resolve` returns a successful
empty address list and leaves the resolver state (cache contents and counters
included) completely unchanged, so any number of repeated calls behave the
same and the cache size is unaffected. -/
theorem C6_blocked_never_cached (r : Resolver) (domain : Str) (now : Nat)
    (upstream : Except ResolveError (List Str))
    (h : r.filter.check domain = FilterDecision.Block) :
    r.resolve domain now upstream = (Except.ok [], r)
  ∧ ((r.resolve domain now upstream).2.resolve domain now upstream
      = (Except.ok [], r)) := by
  have h1 : r.resolve domain now upstream = (Except.ok [], r) := by
    simp [Resolver.resolve, h]
  exact ⟨h1, by rw [h1, h1]⟩

theorem C6_blocked_never_cached_witness :
    rBlocking.filter.check (("malware.example.com").data) = FilterDecision.Block
  ∧ rBlocking.resolve (("malware.example.com").data) 0
      (Except.ok [("6.6.6.6").data]) = (Except.ok [], rBlocking) :=
  ⟨by decide, (C6_blocked_never_cached rBlocking (("malware.example.com").data) 0
    (Except.ok [("6.6.6.6").data]) (by decide)).1⟩

/-- C7: on a cache miss for an allowed domain, `resolve` consults the upstream;
on success the addresses are stored under the domain's key (with the default
TTL, since the upstream supplies none) and returned; on failure the error is
propagated — an `error` result, distinct from the successful-but-empty blocked
result — and the cache map is left exactly as it was. -/
theorem C7_miss_upstream (r : Resolver) (domain : Str) (now : Nat)
    (hallow : r.filter.check domain = FilterDecision.Allow)
    (hmiss : alookup r.cache.cache { name := domain, record_type := recA } = none) :
    (∀ ips : List Str,
        (r.resolve domain now (Except.ok ips)).1 = Except.ok ips
      ∧ alookup (r.resolve domain now (Except.ok ips)).2.cache.cache
          { name := domain, record_type := recA }
          = some { records := ips, inserted_at := now, ttl := r.cache.default_ttl })
  ∧ (∀ e : ResolveError,
        (r.resolve domain now (Except.error e)).1 = Except.error e
      ∧ (r.resolve domain now (Except.error e)).1 ≠ Except.ok []
      ∧ (r.resolve domain now (Except.error e)).2.cache.cache = r.cache.cache) := by
  constructor
  · intro ips
    simp [Resolver.resolve, hallow, DNSCache.get, hmiss, DNSCache.insert,
      alookup_mapInsert_self]
  · intro e
    simp [Resolver.resolve, hallow, DNSCache.get, hmiss]

theorem C7_miss_upstream_witness :
    ((rEmpty.resolve (("clean.example.com").data) 7
        (Except.ok [("9.9.9.9").data])).1 = Except.ok [("9.9.9.9").data]
    ∧ alookup (rEmpty.resolve (("clean.example.com").data) 7
        (Except.ok [("9.9.9.9").data])).2.cache.cache
        { name := ("clean.example.com").data, record_type := recA }
        = some { records := [("9.9.9.9").data], inserted_at := 7,
                 ttl := rEmpty.cache.default_ttl })
  ∧ ((rEmpty.resolve (("clean.example.com").data) 7
        (Except.error (("timeout").data))).1 = Except.error (("timeout").data)
    ∧ (rEmpty.resolve (("clean.example.com").data) 7
        (Except.error (("timeout").data))).1 ≠ Except.ok []
    ∧ (rEmpty.resolve (("clean.example.com").data) 7
        (Except.error (("timeout").data))).2.cache.cache = rEmpty.cache.cache) :=
  ⟨(C7_miss_upstream rEmpty (("clean.example.com").data) 7 (by decide) (by decide)).1
      [("9.9.9.9").data],
   (C7_miss_upstream rEmpty (("clean.example.com").data) 7 (by decide) (by decide)).2
      (("timeout").data)⟩

/-- C8 counterexample: the List Store's `add_domain` does not route
`*.`-prefixed entries.  Adding `*.ads.example.com` to the (enabled) `ads`
category of a fresh manager leaves every wildcard vector empty and stores the
literal entry in the category's exact-match set (and in the flat set). -/
theorem C8_add_domain_not_routed :
    (BlocklistManager.new.add_domain (("*.ads.example.com").data) (("ads").data)).wildcards_by_category = []
  ∧ alookup (BlocklistManager.new.add_domain (("*.ads.example.com").data) (("ads").data)).domains_by_category
      (("ads").data) = some [("*.ads.example.com").data]
  ∧ (BlocklistManager.new.add_domain (("*.ads.example.com").data) (("ads").data)).all_blocked
      = [("*.ads.example.com").data] := by
  decide

/-- C8 (amended): the Static Filter's `add_to_blocklist`/`remove_from_blocklist`
and the List Store's fetch path route `*.`-prefixed entries to the wildcard
collection and never touch the exact-match sets with them; the List Store's
`add_domain`, by contrast, always inserts the (lowercased) entry into the
category's exact-match set and never into a wildcard collection. -/
theorem C8_wildcard_routing (f : FilterEngine) (m : BlocklistManager)
    (domain cat : Str)
    (hlw : strStartsWith (strToLower domain) wildcardDot = true)
    (hraw : strStartsWith domain wildcardDot = true) :
    ((f.add_to_blocklist domain).wildcard_blocklist
        = f.wildcard_blocklist ++ [strToLower domain]
      ∧ (f.add_to_blocklist domain).blocklist = f.blocklist)
  ∧ ((f.remove_from_blocklist domain).wildcard_blocklist
        = f.wildcard_blocklist.filter (fun d => decide (d ≠ strToLower domain))
      ∧ (f.remove_from_blocklist domain).blocklist = f.blocklist)
  ∧ ((m.apply_source cat [domain]).wildcards_by_category
        = pushToCat m.wildcards_by_category cat domain
      ∧ (m.apply_source cat [domain]).domains_by_category
        = ensureCat m.domains_by_category cat)
  ∧ ((m.add_domain domain cat).wildcards_by_category = m.wildcards_by_category
      ∧ (m.add_domain domain cat).domains_by_category
        = addToCat m.domains_by_category cat (strToLower domain)) := by
  refine ⟨?_, ?_, ?_, ?_⟩
  · simp [FilterEngine.add_to_blocklist, hlw]
  · simp [FilterEngine.remove_from_blocklist, hlw]
  · simp [BlocklistManager.apply_source, hraw]
  · unfold BlocklistManager.add_domain
    split <;> exact ⟨rfl, rfl⟩

theorem C8_wildcard_routing_witness :
    (FilterEngine.new.add_to_blocklist (("*.ads.example.com").data)).wildcard_blocklist
      = [("*.ads.example.com").data]
  ∧ (FilterEngine.new.add_to_blocklist (("*.ads.example.com").data)).blocklist = [] := by
  have h := (C8_wildcard_routing FilterEngine.new BlocklistManager.new
    (("*.ads.example.com").data) (("ads").data) (by decide) (by decide)).1
  exact ⟨by rw [h.1]; rfl, h.2⟩

theorem join_insert_enabled (dbc : List (Str × List Str)) (enabled ab : List Str)
    (dl cat x : Str) (hc : cat ∈ enabled)
    (h : x ∈ ab ↔ ∃ c, c ∈ enabled ∧ ∃ s, alookup dbc c = some s ∧ x ∈ s) :
    x ∈ setInsert dl ab ↔
      ∃ c, c ∈ enabled ∧ ∃ s, alookup (addToCat dbc cat dl) c = some s ∧ x ∈ s := by
  rw [mem_setInsert, h]
  constructor
  · rintro (rfl | ⟨c, hcen, s, hs, hx⟩)
    · refine ⟨cat, hc, setInsert x ((alookup dbc cat).getD []), ?_, ?_⟩
      · rw [alookup_addToCat, if_pos rfl]
      · rw [mem_setInsert]
        exact Or.inl rfl
    · by_cases hcc : c = cat
      · subst hcc
        refine ⟨c, hcen, setInsert dl s, ?_, (mem_setInsert _ _ _).mpr (Or.inr hx)⟩
        rw [alookup_addToCat, if_pos rfl, hs]
        rfl
      · exact ⟨c, hcen, s, by rw [alookup_addToCat, if_neg hcc]; exact hs, hx⟩
  · rintro ⟨c, hcen, s', hs', hx'⟩
    rw [alookup_addToCat] at hs'
    by_cases hcc : c = cat
    · subst hcc
      rw [if_pos rfl] at hs'
      cases hs'
      rw [mem_setInsert] at hx'
      rcases hx' with rfl | hx'
      · exact Or.inl rfl
      · rcases halo : alookup dbc c with _ | s0
        · rw [halo] at hx'
          simp at hx'
        · rw [halo] at hx'
          exact Or.inr ⟨c, hcen, s0, halo, hx'⟩
    · rw [if_neg hcc] at hs'
      exact Or.inr ⟨c, hcen, s', hs', hx'⟩

theorem join_insert_disabled (dbc : List (Str × List Str)) (enabled ab : List Str)
    (dl cat x : Str) (hc : cat ∉ enabled)
    (h : x ∈ ab ↔ ∃ c, c ∈ enabled ∧ ∃ s, alookup dbc c = some s ∧ x ∈ s) :
    x ∈ ab ↔
      ∃ c, c ∈ enabled ∧ ∃ s, alookup (addToCat dbc cat dl) c = some s ∧ x ∈ s := by
  rw [h]
  constructor
  · rintro ⟨c, hcen, s, hs, hx⟩
    have hcc : c ≠ cat := fun e => hc (e ▸ hcen)
    exact ⟨c, hcen, s, by rw [alookup_addToCat, if_neg hcc]; exact hs, hx⟩
  · rintro ⟨c, hcen, s, hs, hx⟩
    have hcc : c ≠ cat := fun e => hc (e ▸ hcen)
    rw [alookup_addToCat, if_neg hcc] at hs
    exact ⟨c, hcen, s, hs, hx⟩

theorem join_remove (dbc : List (Str × List Str)) (enabled ab : List Str)
    (dl x : Str)
    (h : x ∈ ab ↔ ∃ c, c ∈ enabled ∧ ∃ s, alookup dbc c = some s ∧ x ∈ s) :
    x ∈ setRemove dl ab ↔
      ∃ c, c ∈ enabled ∧
        ∃ s, alookup (dbc.map (fun kv => (kv.1, setRemove dl kv.2))) c = some s ∧ x ∈ s := by
  rw [mem_setRemove, h]
  constructor
  · rintro ⟨⟨c, hcen, s, hs, hx⟩, hne⟩
    refine ⟨c, hcen, setRemove dl s, ?_, (mem_setRemove _ _ _).mpr ⟨hx, hne⟩⟩
    rw [alookup_map_setRemove, hs]
    rfl
  · rintro ⟨c, hcen, s', hs', hx'⟩
    rw [alookup_map_setRemove] at hs'
    rcases halo : alookup dbc c with _ | s0
    · rw [halo] at hs'
      cases hs'
    · rw [halo] at hs'
      cases hs'
      rw [mem_setRemove] at hx'
      exact ⟨⟨c, hcen, s0, halo, hx'.1⟩, hx'.2⟩

theorem flatInv_add_domain (m : BlocklistManager) (d cat : Str) (h : flatInv m) :
    flatInv (m.add_domain d cat) := by
  intro x
  simp only [BlocklistManager.add_domain]
  by_cases hc : cat ∈ m.enabled_categories
  · rw [if_pos hc]
    exact join_insert_enabled m.domains_by_category m.enabled_categories
      m.all_blocked (strToLower d) cat x hc (h x)
  · rw [if_neg hc]
    exact join_insert_disabled m.domains_by_category m.enabled_categories
      m.all_blocked (strToLower d) cat x hc (h x)

theorem flatInv_remove_domain (m : BlocklistManager) (d : Str) (h : flatInv m) :
    flatInv (m.remove_domain d) := by
  intro x
  simp only [BlocklistManager.remove_domain]
  exact join_remove m.domains_by_category m.enabled_categories
    m.all_blocked (strToLower d) x (h x)

/-- C4: the flat `all_blocked` set equals the join of the enabled categories
with the per-category exact-domain sets after every completed mutation: after
`enable_category`, `disable_category`, `set_enabled_categories` and a
`fetch_blocklists` batch unconditionally (they rebuild synchronously), and
after `add_domain`/`remove_domain` whenever it held before. -/
theorem C4_flat_set_never_diverges :
    (∀ (m : BlocklistManager) (cat : Str), flatInv (m.enable_category cat))
  ∧ (∀ (m : BlocklistManager) (cat : Str), flatInv (m.disable_category cat))
  ∧ (∀ (m : BlocklistManager) (cats : List Str), flatInv (m.set_enabled_categories cats))
  ∧ (∀ (m : BlocklistManager) (sources : List (Str × List Str)),
      flatInv (m.fetch_apply sources))
  ∧ (∀ (m : BlocklistManager) (d cat : Str), flatInv m → flatInv (m.add_domain d cat))
  ∧ (∀ (m : BlocklistManager) (d : Str), flatInv m → flatInv (m.remove_domain d)) :=
  ⟨fun _ _ => flatInv_rebuild _,
   fun _ _ => flatInv_rebuild _,
   fun _ _ => flatInv_rebuild _,
   fun _ _ => flatInv_rebuild _,
   flatInv_add_domain,
   flatInv_remove_domain⟩

theorem C4_flat_set_never_diverges_witness :
    flatInv (BlocklistManager.new.add_domain (("x.example.com").data) (("ads").data)) :=
  C4_flat_set_never_diverges.2.2.2.2.1 BlocklistManager.new
    (("x.example.com").data) (("ads").data)
    (fun x => by simp [BlocklistManager.new, alookup])

end ShieldAI
